import Mathlib

/-!
Verification of the helicopter hover simulator.

This file gives a shallow embedding, over the real numbers, of the two source
modules `quaternion.py` and `helicopter.py`, and proves theorems settling the
specification claims about them.  Python floats are modelled as real numbers;
the process-wide random source feeding the noise filter is modelled by passing
the drawn samples in explicitly.
-/

namespace HeliVerify

/-- Three-component real vector, used for rotation inputs and state slices. -/
@[ext]
structure V3 where
  x : ℝ
  y : ℝ
  z : ℝ

/-- Quaternion in scalar-last convention: vector part (x, y, z), scalar part w,
mirroring the 4-element lists of quaternion.py. -/
@[ext]
structure Quat where
  x : ℝ
  y : ℝ
  z : ℝ
  w : ℝ

/-- Source conjugate(q): negate the vector part, keep the scalar part. -/
def conjugate (q : Quat) : Quat :=
  ⟨-q.x, -q.y, -q.z, q.w⟩

/-- Source multiply(q1, q2): the Hamilton product under the scalar-last
convention, component by component as written in quaternion.py. -/
def multiply (q1 q2 : Quat) : Quat :=
  ⟨q1.w * q2.x + q1.x * q2.w + q1.y * q2.z - q1.z * q2.y,
   q1.w * q2.y - q1.x * q2.z + q1.y * q2.w + q1.z * q2.x,
   q1.w * q2.z + q1.x * q2.y - q1.y * q2.x + q1.z * q2.w,
   q1.w * q2.w - q1.x * q2.x - q1.y * q2.y - q1.z * q2.z⟩

/-- Source rotate(v, q): embed v as a pure quaternion [v, 0], compute
q * v * conjugate(q), and return the vector part. -/
def rotate (v : V3) (q : Quat) : V3 :=
  let t := multiply q ⟨v.x, v.y, v.z, 0⟩
  let r := multiply t (conjugate q)
  ⟨r.x, r.y, r.z⟩

/-- Source inverse_rotate(v, q) = rotate(v, conjugate(q)). -/
def inverse_rotate (v : V3) (q : Quat) : V3 :=
  rotate v (conjugate q)

/-- Rotation angle `|v|` computed at the top of quaternion_from_rotation. -/
noncomputable def angle (v : V3) : ℝ :=
  Real.sqrt (v.x ^ 2 + v.y ^ 2 + v.z ^ 2)

/-- Source quaternion_from_rotation(v): if the angle is below 1e-4 use the
small-angle form [v/2, sqrt(1 - |v/2|^2)], otherwise the exact form
[sin(angle/2) * v/angle, cos(angle/2)]. -/
noncomputable def quaternion_from_rotation (v : V3) : Quat :=
  if angle v < 1e-4 then
    ⟨v.x / 2, v.y / 2, v.z / 2,
     Real.sqrt (1 - ((v.x / 2) ^ 2 + (v.y / 2) ^ 2 + (v.z / 2) ^ 2))⟩
  else
    ⟨Real.sin (angle v / 2) * (v.x / angle v),
     Real.sin (angle v / 2) * (v.y / angle v),
     Real.sin (angle v / 2) * (v.z / angle v),
     Real.cos (angle v / 2)⟩

/-- Source quaternion_from_orientation(v): reconstruct the scalar part from a
vector part of a unit quaternion. -/
noncomputable def quaternion_from_orientation (v : V3) : Quat :=
  ⟨v.x, v.y, v.z, Real.sqrt (1 - (v.x ^ 2 + v.y ^ 2 + v.z ^ 2))⟩

/-- Squared norm of a quaternion. -/
def normSq (q : Quat) : ℝ :=
  q.x ^ 2 + q.y ^ 2 + q.z ^ 2 + q.w ^ 2

/-- Identity quaternion [0, 0, 0, 1]. -/
def idQuat : Quat := ⟨0, 0, 0, 1⟩

/-! ## Embedding of helicopter.py -/

/-- Nine state components of helicopter.py, in source index order:
linear velocity (u, v, w), position (x, y, z), angular velocity (p, q, r). -/
@[ext]
structure State9 where
  u : ℝ
  v : ℝ
  w : ℝ
  x : ℝ
  y : ℝ
  z : ℝ
  p : ℝ
  q : ℝ
  r : ℝ

/-- Six-component real vector: used for the persistent noise values, the
per-channel noise magnitudes, and one control step's six box_mull samples. -/
@[ext]
structure R6 where
  n0 : ℝ
  n1 : ℝ
  n2 : ℝ
  n3 : ℝ
  n4 : ℝ
  n5 : ℝ

/-- Eleven model parameters, named after the source's model indices:
U_DRAG = 0, V_DRAG = 1, SIDE_THRUST = 2, W_DRAG = 3, W_COLL = 4, P_DRAG = 5,
P_AILR = 6, Q_DRAG = 7, Q_ELEV = 8, R_DRAG = 9, R_RUDD = 10. -/
structure Params where
  u_drag : ℝ
  v_drag : ℝ
  side_thrust : ℝ
  w_drag : ℝ
  w_coll : ℝ
  p_drag : ℝ
  p_ailr : ℝ
  q_drag : ℝ
  q_elev : ℝ
  r_drag : ℝ
  r_rudd : ℝ

/-- Four action channels: AILR = 0, ELEV = 1, RUDD = 2, COLL = 3. -/
structure Action where
  ailr : ℝ
  elev : ℝ
  rudd : ℝ
  coll : ℝ

/-- Constructor arguments of Helicopter: params, noise_std, dt (default 0.01),
steps (default 6000, stored as max_steps). -/
structure Config where
  params : Params
  noise_std : R6
  dt : ℝ
  max_steps : ℕ

/-- Mutable fields of a Helicopter instance set up by reset(). -/
structure Sim where
  noise : R6
  state : State9
  q : Quat
  terminal : Bool
  steps : ℕ

/-- Source LIMITS entries 0-2: velocity bound 5.0. -/
def limitVel : ℝ := 5

/-- Source LIMITS entries 3-5: position bound 20.0. -/
def limitPos : ℝ := 20

/-- Source LIMITS entries 6-8: angular-rate bound 4 * pi. -/
noncomputable def limitRate : ℝ := 4 * Real.pi

/-- Source LIMITS entry 9: tilt guard cos(30.0 / 2.0 * pi / 180.0). -/
noncomputable def limitTilt : ℝ := Real.cos (30 / 2 * Real.pi / 180)

/-- Condition of the first branch of _update_status: some state component
exceeds its limit in absolute value (the source enumerates the 9 state
entries against LIMITS[0..8]). -/
noncomputable def limitCond (s : State9) : Prop :=
  |s.u| > limitVel ∨ |s.v| > limitVel ∨ |s.w| > limitVel ∨
    |s.x| > limitPos ∨ |s.y| > limitPos ∨ |s.z| > limitPos ∨
    |s.p| > limitRate ∨ |s.q| > limitRate ∨ |s.r| > limitRate

/-- Source box_mull(): Box-Muller transform of two uniform draws r1, r2
(the source uses x1 = 1 - random(), x2 = 1 - random()). -/
noncomputable def box_mull (r1 r2 : ℝ) : ℝ :=
  Real.sqrt (-2 * Real.log (1 - r1)) * Real.cos (2 * Real.pi * (1 - r2))

/-- Source action saturation min(max(v, -1.0), 1.0) in _update_state. -/
def clamp (v : ℝ) : ℝ := min (max v (-1)) 1

/-- Clamp applied to all four action channels. -/
def clampAction (a : Action) : Action :=
  ⟨clamp a.ailr, clamp a.elev, clamp a.rudd, clamp a.coll⟩

/-- One Euler sub-step of _update_state, in source order: position update,
body-frame velocity delta, rotation back to world frame, velocity update with
gravity 9.81 on the vertical channel, orientation update by the incremental
quaternion, angular-velocity delta, angular-rate update.  The action is
assumed already saturated by the caller. -/
noncomputable def substep (pr : Params) (dt : ℝ) (a : Action) (h : Sim) : Sim :=
  let s := h.state
  let x1 := s.x + dt * s.u
  let y1 := s.y + dt * s.v
  let z1 := s.z + dt * s.w
  let velocity := inverse_rotate ⟨s.u, s.v, s.w⟩ h.q
  let d0 := rotate ⟨pr.u_drag * velocity.x + h.noise.n0,
                    pr.v_drag * velocity.y + pr.side_thrust + h.noise.n1,
                    pr.w_drag * velocity.z + pr.w_coll * a.coll + h.noise.n2⟩ h.q
  let u1 := s.u + dt * d0.x
  let v1 := s.v + dt * d0.y
  let w1 := s.w + dt * (d0.z + 9.81)
  let q1 := multiply h.q (quaternion_from_rotation ⟨dt * s.p, dt * s.q, dt * s.r⟩)
  let p1 := s.p + dt * (pr.p_drag * s.p + pr.p_ailr * a.ailr + h.noise.n3)
  let q2 := s.q + dt * (pr.q_drag * s.q + pr.q_elev * a.elev + h.noise.n4)
  let r1 := s.r + dt * (pr.r_drag * s.r + pr.r_rudd * a.rudd + h.noise.n5)
  { h with state := ⟨u1, v1, w1, x1, y1, z1, p1, q2, r1⟩, q := q1 }

/-- Loop count int(0.1 / dt) of _update_state (truncation toward zero equals
the floor for the non-negative quotients that yield any iterations at all). -/
noncomputable def nSub (cfg : Config) : ℕ :=
  (Int.floor ((0.1 : ℝ) / cfg.dt)).toNat

/-- Source _update_state: saturate the action, then run int(0.1/dt) Euler
sub-steps. -/
noncomputable def updateState (cfg : Config) (a : Action) (h : Sim) : Sim :=
  (substep cfg.params cfg.dt (clampAction a))^[nSub cfg] h

/-- Source _update_noise, with the six box_mull() samples of this control
step passed in explicitly as d: noise[i] = 0.8 * noise[i] + 0.2 * d[i] *
noise_std[i] * 2.0. -/
noncomputable def updateNoise (cfg : Config) (d : R6) (h : Sim) : Sim :=
  { h with noise :=
      ⟨0.8 * h.noise.n0 + 0.2 * d.n0 * cfg.noise_std.n0 * 2.0,
       0.8 * h.noise.n1 + 0.2 * d.n1 * cfg.noise_std.n1 * 2.0,
       0.8 * h.noise.n2 + 0.2 * d.n2 * cfg.noise_std.n2 * 2.0,
       0.8 * h.noise.n3 + 0.2 * d.n3 * cfg.noise_std.n3 * 2.0,
       0.8 * h.noise.n4 + 0.2 * d.n4 * cfg.noise_std.n4 * 2.0,
       0.8 * h.noise.n5 + 0.2 * d.n5 * cfg.noise_std.n5 * 2.0⟩ }

open Classical in
/-- Source _update_status: set terminal when a state limit is exceeded, or
the quaternion scalar part drops below the tilt limit, or steps + 1 reaches
max_steps; otherwise leave terminal unchanged. -/
noncomputable def updateStatus (cfg : Config) (h : Sim) : Sim :=
  if limitCond h.state then { h with terminal := true }
  else if |h.q.w| < limitTilt then { h with terminal := true }
  else if h.steps + 1 ≥ cfg.max_steps then { h with terminal := true }
  else h

/-- Source update(action): advance the noise filter, integrate the state,
re-evaluate the status, then increment the step counter. -/
noncomputable def update (cfg : Config) (d : R6) (a : Action) (h : Sim) : Sim :=
  let h1 := updateNoise cfg d h
  let h2 := updateState cfg a h1
  let h3 := updateStatus cfg h2
  { h3 with steps := h3.steps + 1 }

/-- Source reset(): zero noise, zero state, identity orientation,
terminal = false, steps = 0. -/
def reset : Sim :=
  ⟨⟨0, 0, 0, 0, 0, 0⟩, ⟨0, 0, 0, 0, 0, 0, 0, 0, 0⟩, ⟨0, 0, 0, 1⟩, false, 0⟩

/-- Non-terminal branch of the error property: sum of squares of the 9 state
components and the 3 quaternion vector components. -/
def nonTerminalError (h : Sim) : ℝ :=
  h.state.u ^ 2 + h.state.v ^ 2 + h.state.w ^ 2 +
    h.state.x ^ 2 + h.state.y ^ 2 + h.state.z ^ 2 +
    h.state.p ^ 2 + h.state.q ^ 2 + h.state.r ^ 2 +
    h.q.x ^ 2 + h.q.y ^ 2 + h.q.z ^ 2

/-- Per-step terminal penalty: sum of squares of LIMITS[0..8] plus
1.0 - LIMITS[9]^2, as in the terminal branch of the error property. -/
noncomputable def terminalPenalty : ℝ :=
  limitVel ^ 2 + limitVel ^ 2 + limitVel ^ 2 +
    limitPos ^ 2 + limitPos ^ 2 + limitPos ^ 2 +
    limitRate ^ 2 + limitRate ^ 2 + limitRate ^ 2 +
    (1 - limitTilt ^ 2)

/-- Source error property: the non-terminal sum of squares, or the terminal
penalty multiplied by max_steps - steps (an integer difference that can be
negative once steps exceeds max_steps). -/
noncomputable def error (cfg : Config) (h : Sim) : ℝ :=
  if h.terminal then terminalPenalty * ((cfg.max_steps : ℝ) - (h.steps : ℝ))
  else nonTerminalError h

/-- Source observation property: body-frame velocity, body-frame position,
raw angular rates, and the quaternion vector part - 12 values. -/
noncomputable def observation (h : Sim) : List ℝ :=
  let a := inverse_rotate ⟨h.state.u, h.state.v, h.state.w⟩ h.q
  let b := inverse_rotate ⟨h.state.x, h.state.y, h.state.z⟩ h.q
  [a.x, a.y, a.z, b.x, b.y, b.z, h.state.p, h.state.q, h.state.r,
   h.q.x, h.q.y, h.q.z]

/-- Episode trajectory: traj cfg ins acts k is the simulator after reset()
followed by k update calls, the i-th call using noise samples ins i and
action acts i. -/
noncomputable def traj (cfg : Config) (ins : ℕ → R6) (acts : ℕ → Action) :
    ℕ → Sim
  | 0 => reset
  | k + 1 => update cfg (ins k) (acts k) (traj cfg ins acts k)

/-- The XcellTempest parameter preset from helicopter.py. -/
noncomputable def xcellParams : Params :=
  ⟨-0.18, -0.43, -0.54, -0.49, -42.15, -12.78, 33.04, -10.12, -33.32, -8.16,
   70.54⟩

/-! ## Concrete fixtures used by witnesses and counterexamples -/

/-- All-zero parameter vector (11 entries). -/
def params0 : Params := ⟨0, 0, 0, 0, 0, 0, 0, 0, 0, 0, 0⟩

/-- All-zero 6-vector, used for noise_std and noise samples. -/
def r6zero : R6 := ⟨0, 0, 0, 0, 0, 0⟩

/-- Zero action on all four channels. -/
def act0 : Action := ⟨0, 0, 0, 0⟩

/-- Small test configuration: zero parameters and noise magnitudes,
dt = 0.2 (so int(0.1/dt) = 0 sub-steps) and a step budget of 1. -/
def cfgW : Config := ⟨params0, r6zero, 0.2, 1⟩

/-- Default-argument configuration: zero parameters and noise magnitudes with
the constructor defaults dt = 0.01 and steps = 6000. -/
def cfgD : Config := ⟨params0, r6zero, 0.01, 6000⟩

/-- XcellTempest configuration with zero noise magnitudes and the default
dt = 0.01 and step budget 6000, as in the concrete gravity scenario. -/
noncomputable def cfgX : Config := ⟨xcellParams, r6zero, 0.01, 6000⟩

/-- All-zero 9-component state. -/
def stateZ : State9 := ⟨0, 0, 0, 0, 0, 0, 0, 0, 0⟩

/-- Constant input streams: zero noise samples and zero actions. -/
def insW : ℕ → R6 := fun _ => r6zero

/-- Constant zero-action stream. -/
def actsW : ℕ → Action := fun _ => act0

/-- Simulator state used for the C1 counterexample: u = 1, everything else
as after reset, step counter 0, not yet terminal. -/
def simC1 : Sim := ⟨r6zero, ⟨1, 0, 0, 0, 0, 0, 0, 0, 0⟩, idQuat, false, 0⟩

/-- Lateral velocity after n Euler sub-steps of the gravity scenario with
XcellTempest parameters (V_DRAG = -0.43, SIDE_THRUST = -0.54, dt = 0.01). -/
def vseqX : ℕ → ℝ
  | 0 => 0
  | n + 1 => vseqX n + 0.01 * (-0.43 * vseqX n + -0.54)

/-- Vertical velocity after n Euler sub-steps of the gravity scenario with
XcellTempest parameters (W_DRAG = -0.49, gravity 9.81, dt = 0.01). -/
def wseqX : ℕ → ℝ
  | 0 => 0
  | n + 1 => wseqX n + 0.01 * (-0.49 * wseqX n + 9.81)

/-- Lateral position after n Euler sub-steps of the gravity scenario. -/
def yseqX : ℕ → ℝ
  | 0 => 0
  | n + 1 => yseqX n + 0.01 * vseqX n

/-- Vertical position after n Euler sub-steps of the gravity scenario. -/
def zseqX : ℕ → ℝ
  | 0 => 0
  | n + 1 => zseqX n + 0.01 * wseqX n

/-- Simulator states reached in the gravity scenario: level orientation, only
the v, w velocities and y, z positions move. -/
noncomputable def xcellSim (v w y z : ℝ) : Sim :=
  ⟨r6zero, ⟨0, v, w, 0, y, z, 0, 0, 0⟩, idQuat, false, 0⟩

/-! ## Quaternion lemmas and claims C8, C10 -/

/-- Rotating with the identity quaternion is the identity map. -/
theorem rotate_idQuat (v : V3) : rotate v idQuat = v := by
  simp only [rotate, multiply, conjugate, idQuat]
  ext <;> ring

/-- Inverse-rotating with the identity quaternion is the identity map. -/
theorem inverse_rotate_idQuat (v : V3) : inverse_rotate v idQuat = v := by
  simp only [inverse_rotate, conjugate, idQuat, neg_zero]
  exact rotate_idQuat v

/-- Multiplying on the right by the identity quaternion does nothing. -/
theorem multiply_idQuat (q : Quat) : multiply q idQuat = q := by
  simp only [multiply, idQuat]
  ext <;> ring

/-- Rotating the zero vector gives the zero vector. -/
theorem rotate_zero (q : Quat) : rotate ⟨0, 0, 0⟩ q = ⟨0, 0, 0⟩ := by
  simp only [rotate, multiply, conjugate]
  ext <;> ring

/-- quaternion_from_rotation on the zero vector yields the identity. -/
theorem quaternion_from_rotation_zero :
    quaternion_from_rotation ⟨0, 0, 0⟩ = idQuat := by
  have ha : angle ⟨0, 0, 0⟩ = 0 := by
    simp [angle]
  rw [quaternion_from_rotation, if_pos (by rw [ha]; norm_num)]
  simp only [idQuat]
  norm_num

/-- Squared norm of a Hamilton product is the product of squared norms
(Euler four-square identity, by polynomial arithmetic). -/
theorem normSq_multiply (q1 q2 : Quat) :
    normSq (multiply q1 q2) = normSq q1 * normSq q2 := by
  simp only [normSq, multiply]
  ring

/-- C8: for every unit quaternion q (norm 1) and every 3-vector v,
inverse_rotate(rotate(v, q), q) equals v exactly in real arithmetic. -/
theorem round_trip_rotate (q : Quat) (v : V3) (h : normSq q = 1) :
    inverse_rotate (rotate v q) q = v := by
  obtain ⟨a, b, c, d⟩ := q
  obtain ⟨vx, vy, vz⟩ := v
  simp only [normSq] at h
  simp only [inverse_rotate, rotate, conjugate, multiply]
  refine V3.ext ?_ ?_ ?_
  · show _ = vx
    linear_combination (vx * (a ^ 2 + b ^ 2 + c ^ 2 + d ^ 2 + 1)) * h
  · show _ = vy
    linear_combination (vy * (a ^ 2 + b ^ 2 + c ^ 2 + d ^ 2 + 1)) * h
  · show _ = vz
    linear_combination (vz * (a ^ 2 + b ^ 2 + c ^ 2 + d ^ 2 + 1)) * h

/-- Witness for C8 at a concrete unit quaternion and vector. -/
theorem round_trip_rotate_witness :
    normSq ⟨0, 0, 0, 1⟩ = 1 ∧
      inverse_rotate (rotate ⟨1, 2, 3⟩ ⟨0, 0, 0, 1⟩) ⟨0, 0, 0, 1⟩ = ⟨1, 2, 3⟩ :=
  ⟨by simp [normSq], round_trip_rotate ⟨0, 0, 0, 1⟩ ⟨1, 2, 3⟩ (by simp [normSq])⟩

/-- Below the small-angle threshold the square-root argument of the
small-angle branch is non-negative. -/
theorem small_branch_nonneg (v : V3) (hsmall : angle v < 1e-4) :
    0 ≤ 1 - ((v.x / 2) ^ 2 + (v.y / 2) ^ 2 + (v.z / 2) ^ 2) := by
  have hnn : 0 ≤ v.x ^ 2 + v.y ^ 2 + v.z ^ 2 := by positivity
  have hlt : v.x ^ 2 + v.y ^ 2 + v.z ^ 2 < (1e-4) ^ 2 :=
    (Real.sqrt_lt' (by norm_num : (0 : ℝ) < 1e-4)).mp hsmall
  nlinarith

/-- Squared rotation angle equals the squared length of the rotation vector. -/
theorem angle_sq (v : V3) : angle v ^ 2 = v.x ^ 2 + v.y ^ 2 + v.z ^ 2 :=
  Real.sq_sqrt (by positivity)

/-- C10: quaternion_from_rotation is total.  On the small-angle branch the
square-root argument 1 - |v/2|^2 is non-negative, and the division by the
angle happens only on the branch where the angle is at least 1e-4, hence
nonzero. -/
theorem quaternion_from_rotation_total (v : V3) :
    (angle v < 1e-4 →
        0 ≤ 1 - ((v.x / 2) ^ 2 + (v.y / 2) ^ 2 + (v.z / 2) ^ 2)) ∧
      (¬ angle v < 1e-4 → angle v ≠ 0) := by
  constructor
  · exact small_branch_nonneg v
  · intro hbig
    have : (1e-4 : ℝ) ≤ angle v := not_lt.mp hbig
    intro h0
    rw [h0] at this
    norm_num at this

/-- Witness for C10 at the zero rotation vector. -/
theorem quaternion_from_rotation_total_witness :
    angle ⟨0, 0, 0⟩ < 1e-4 ∧
      0 ≤ 1 - (((0 : ℝ) / 2) ^ 2 + ((0 : ℝ) / 2) ^ 2 + ((0 : ℝ) / 2) ^ 2) := by
  have ha : angle ⟨0, 0, 0⟩ < 1e-4 := by
    simp only [angle]
    norm_num
  exact ⟨ha, (quaternion_from_rotation_total ⟨0, 0, 0⟩).1 ha⟩

/-! ## Structural lemmas about the simulator operations -/

/-- A sub-step changes only the state and orientation fields. -/
theorem substep_noise (pr : Params) (dt : ℝ) (a : Action) (h : Sim) :
    (substep pr dt a h).noise = h.noise := rfl

/-- A sub-step leaves the terminal flag unchanged. -/
theorem substep_terminal (pr : Params) (dt : ℝ) (a : Action) (h : Sim) :
    (substep pr dt a h).terminal = h.terminal := rfl

/-- A sub-step leaves the step counter unchanged. -/
theorem substep_steps (pr : Params) (dt : ℝ) (a : Action) (h : Sim) :
    (substep pr dt a h).steps = h.steps := rfl

/-- Iterated sub-steps leave the terminal flag unchanged. -/
theorem iterate_substep_terminal (pr : Params) (dt : ℝ) (a : Action) (n : ℕ)
    (h : Sim) : ((substep pr dt a)^[n] h).terminal = h.terminal := by
  induction n generalizing h with
  | zero => rfl
  | succ n ih =>
      rw [Function.iterate_succ_apply, ih, substep_terminal]

/-- Iterated sub-steps leave the step counter unchanged. -/
theorem iterate_substep_steps (pr : Params) (dt : ℝ) (a : Action) (n : ℕ)
    (h : Sim) : ((substep pr dt a)^[n] h).steps = h.steps := by
  induction n generalizing h with
  | zero => rfl
  | succ n ih =>
      rw [Function.iterate_succ_apply, ih, substep_steps]

/-- _update_state leaves the terminal flag unchanged. -/
theorem updateState_terminal (cfg : Config) (a : Action) (h : Sim) :
    (updateState cfg a h).terminal = h.terminal :=
  iterate_substep_terminal _ _ _ _ _

/-- _update_state leaves the step counter unchanged. -/
theorem updateState_steps (cfg : Config) (a : Action) (h : Sim) :
    (updateState cfg a h).steps = h.steps :=
  iterate_substep_steps _ _ _ _ _

/-- _update_noise leaves the state, orientation, flag and counter unchanged. -/
theorem updateNoise_fields (cfg : Config) (d : R6) (h : Sim) :
    (updateNoise cfg d h).state = h.state ∧
      (updateNoise cfg d h).q = h.q ∧
      (updateNoise cfg d h).terminal = h.terminal ∧
      (updateNoise cfg d h).steps = h.steps :=
  ⟨rfl, rfl, rfl, rfl⟩

/-- _update_status changes at most the terminal flag. -/
theorem updateStatus_fields (cfg : Config) (h : Sim) :
    (updateStatus cfg h).state = h.state ∧
      (updateStatus cfg h).q = h.q ∧
      (updateStatus cfg h).noise = h.noise ∧
      (updateStatus cfg h).steps = h.steps := by
  unfold updateStatus
  split_ifs <;> exact ⟨rfl, rfl, rfl, rfl⟩

/-- When no terminal condition fires, _update_status is the identity. -/
theorem updateStatus_none (cfg : Config) (h : Sim)
    (h1 : ¬ limitCond h.state) (h2 : ¬ |h.q.w| < limitTilt)
    (h3 : ¬ h.steps + 1 ≥ cfg.max_steps) :
    updateStatus cfg h = h := by
  unfold updateStatus
  rw [if_neg h1, if_neg h2, if_neg h3]

/-- The update call increments the step counter by exactly one. -/
theorem update_steps (cfg : Config) (d : R6) (a : Action) (h : Sim) :
    (update cfg d a h).steps = h.steps + 1 := by
  show (updateStatus cfg (updateState cfg a (updateNoise cfg d h))).steps + 1
      = h.steps + 1
  rw [(updateStatus_fields cfg _).2.2.2, updateState_steps]
  rfl

/-- After k calls from reset the step counter equals k. -/
theorem traj_steps (cfg : Config) (ins : ℕ → R6) (acts : ℕ → Action) (k : ℕ) :
    (traj cfg ins acts k).steps = k := by
  induction k with
  | zero => rfl
  | succ k ih => rw [traj, update_steps, ih]

/-- The terminal flag after a call is the one computed by the status check on
the post-integration state. -/
theorem traj_succ_terminal (cfg : Config) (ins : ℕ → R6) (acts : ℕ → Action)
    (k : ℕ) :
    (traj cfg ins acts (k + 1)).terminal =
      (updateStatus cfg (updateState cfg (acts k)
        (updateNoise cfg (ins k) (traj cfg ins acts k)))).terminal := rfl

/-- The state after a call is the post-integration state of that call. -/
theorem traj_succ_state (cfg : Config) (ins : ℕ → R6) (acts : ℕ → Action)
    (k : ℕ) :
    (traj cfg ins acts (k + 1)).state =
      (updateState cfg (acts k)
        (updateNoise cfg (ins k) (traj cfg ins acts k))).state :=
  (updateStatus_fields cfg _).1

/-- The orientation after a call is the post-integration orientation. -/
theorem traj_succ_q (cfg : Config) (ins : ℕ → R6) (acts : ℕ → Action)
    (k : ℕ) :
    (traj cfg ins acts (k + 1)).q =
      (updateState cfg (acts k)
        (updateNoise cfg (ins k) (traj cfg ins acts k))).q :=
  (updateStatus_fields cfg _).2.1

/-- Step counter of the post-integration state inside a call. -/
theorem inner_steps (cfg : Config) (d : R6) (a : Action) (h : Sim) :
    (updateState cfg a (updateNoise cfg d h)).steps = h.steps := by
  rw [updateState_steps]
  rfl

/-- Terminal flag of the post-integration state inside a call. -/
theorem inner_terminal (cfg : Config) (d : R6) (a : Action) (h : Sim) :
    (updateState cfg a (updateNoise cfg d h)).terminal = h.terminal := by
  rw [updateState_terminal]
  rfl

/-- The tilt limit is the cosine of 15 degrees in radians. -/
theorem limitTilt_eq : limitTilt = Real.cos (15 * Real.pi / 180) := by
  unfold limitTilt
  norm_num

/-- The tilt limit lies in [0, 1]. -/
theorem limitTilt_mem : 0 ≤ limitTilt ∧ limitTilt ≤ 1 := by
  constructor
  · unfold limitTilt
    apply Real.cos_nonneg_of_mem_Icc
    constructor
    · nlinarith [Real.pi_pos]
    · nlinarith [Real.pi_pos, Real.pi_le_four]
  · exact Real.cos_le_one _

/-- The all-zero state violates no state limit. -/
theorem limitCond_zero : ¬ limitCond stateZ := by
  unfold limitCond limitVel limitPos limitRate stateZ
  push_neg
  refine ⟨?_, ?_, ?_, ?_, ?_, ?_, ?_, ?_, ?_⟩ <;>
    simp <;> positivity

/-- The identity orientation passes the tilt check. -/
theorem tilt_id : ¬ |idQuat.w| < limitTilt := by
  rw [not_lt]
  calc limitTilt ≤ 1 := limitTilt_mem.2
    _ = |idQuat.w| := by simp [idQuat]

/-! ## Claim C7: the terminal conditions -/

/-- C7: after the status evaluation, terminal is true whenever one of the 9
state components exceeds its limit (5 for velocities, 20 for positions,
4 * pi for angular rates) in absolute value, or the absolute value of the
quaternion scalar part falls below cos(15 degrees). -/
theorem updateStatus_terminal_of_violation (cfg : Config) (h : Sim)
    (hv : limitCond h.state ∨ |h.q.w| < Real.cos (15 * Real.pi / 180)) :
    (updateStatus cfg h).terminal = true := by
  unfold updateStatus
  split_ifs with h1 h2 h3
  · rfl
  · rfl
  · rfl
  · rcases hv with hv | hv
    · exact absurd hv h1
    · rw [← limitTilt_eq] at hv
      exact absurd hv h2

/-- Witness for C7: a state whose u component is 6 > 5 makes the status
evaluation set terminal. -/
theorem updateStatus_terminal_of_violation_witness :
    (updateStatus cfgW
        ⟨r6zero, ⟨6, 0, 0, 0, 0, 0, 0, 0, 0⟩, idQuat, false, 0⟩).terminal
      = true := by
  apply updateStatus_terminal_of_violation
  left
  unfold limitCond limitVel
  left
  simp
  norm_num

/-! ## Claim C5: action saturation -/

/-- Clamping is idempotent. -/
theorem clamp_clamp (x : ℝ) : clamp (clamp x) = clamp x := by
  unfold clamp
  rw [max_eq_left, min_eq_left]
  · exact min_le_right _ _
  · exact le_min (le_max_right _ _) (by norm_num)

/-- Componentwise clamping is idempotent. -/
theorem clampAction_clampAction (a : Action) :
    clampAction (clampAction a) = clampAction a := by
  unfold clampAction
  simp only [clamp_clamp]

/-- C5: the state integrator gives the same result on an action and on its
componentwise clamp into [-1, 1]; in particular a full update call on
action [5, 0, 0, 0] equals the same call on [1, 0, 0, 0]. -/
theorem updateState_clamp_eq :
    (∀ (cfg : Config) (a : Action) (h : Sim),
        updateState cfg a h = updateState cfg (clampAction a) h) ∧
      (∀ (cfg : Config) (d : R6) (h : Sim),
        update cfg d ⟨5, 0, 0, 0⟩ h = update cfg d ⟨1, 0, 0, 0⟩ h) := by
  have key : ∀ (cfg : Config) (a : Action) (h : Sim),
      updateState cfg a h = updateState cfg (clampAction a) h := by
    intro cfg a h
    unfold updateState
    rw [clampAction_clampAction]
  refine ⟨key, ?_⟩
  intro cfg d h
  have hca : clampAction ⟨5, 0, 0, 0⟩ = clampAction ⟨1, 0, 0, 0⟩ := by
    unfold clampAction clamp
    norm_num
  have h2eq : updateState cfg ⟨5, 0, 0, 0⟩ (updateNoise cfg d h)
      = updateState cfg ⟨1, 0, 0, 0⟩ (updateNoise cfg d h) := by
    rw [key cfg ⟨5, 0, 0, 0⟩, key cfg ⟨1, 0, 0, 0⟩, hca]
  simp only [update, h2eq]

/-! ## Claim C9: unit-norm preservation -/

/-- quaternion_from_rotation returns a unit-norm quaternion on both branches
(exact real arithmetic). -/
theorem normSq_quaternion_from_rotation (v : V3) :
    normSq (quaternion_from_rotation v) = 1 := by
  unfold quaternion_from_rotation
  split_ifs with hb
  · have hnn := small_branch_nonneg v hb
    simp only [normSq]
    rw [Real.sq_sqrt hnn]
    ring
  · have hθ : angle v ≠ 0 := by
      have h1 : (1e-4 : ℝ) ≤ angle v := not_lt.mp hb
      intro h0
      rw [h0] at h1
      norm_num at h1
    simp only [normSq]
    calc (Real.sin (angle v / 2) * (v.x / angle v)) ^ 2 +
          (Real.sin (angle v / 2) * (v.y / angle v)) ^ 2 +
          (Real.sin (angle v / 2) * (v.z / angle v)) ^ 2 +
          Real.cos (angle v / 2) ^ 2
        = Real.sin (angle v / 2) ^ 2 *
            ((v.x ^ 2 + v.y ^ 2 + v.z ^ 2) / angle v ^ 2) +
            Real.cos (angle v / 2) ^ 2 := by ring
      _ = Real.sin (angle v / 2) ^ 2 * (angle v ^ 2 / angle v ^ 2) +
            Real.cos (angle v / 2) ^ 2 := by rw [angle_sq]
      _ = Real.sin (angle v / 2) ^ 2 + Real.cos (angle v / 2) ^ 2 := by
            rw [div_self (pow_ne_zero 2 hθ)]; ring
      _ = 1 := Real.sin_sq_add_cos_sq _

/-- A sub-step composes the orientation with the incremental rotation. -/
theorem substep_q (pr : Params) (dt : ℝ) (a : Action) (h : Sim) :
    (substep pr dt a h).q =
      multiply h.q
        (quaternion_from_rotation
          ⟨dt * h.state.p, dt * h.state.q, dt * h.state.r⟩) := rfl

/-- A sub-step preserves a unit-norm orientation. -/
theorem substep_normSq (pr : Params) (dt : ℝ) (a : Action) (h : Sim)
    (hq : normSq h.q = 1) : normSq (substep pr dt a h).q = 1 := by
  rw [substep_q, normSq_multiply, hq, normSq_quaternion_from_rotation, one_mul]

/-- Iterated sub-steps preserve a unit-norm orientation. -/
theorem iterate_substep_normSq (pr : Params) (dt : ℝ) (a : Action) (n : ℕ)
    (h : Sim) (hq : normSq h.q = 1) :
    normSq ((substep pr dt a)^[n] h).q = 1 := by
  induction n generalizing h with
  | zero => exact hq
  | succ n ih =>
      rw [Function.iterate_succ_apply]
      exact ih _ (substep_normSq _ _ _ _ hq)

/-- A full update call preserves a unit-norm orientation. -/
theorem update_normSq (cfg : Config) (d : R6) (a : Action) (h : Sim)
    (hq : normSq h.q = 1) : normSq (update cfg d a h).q = 1 := by
  show normSq (updateStatus cfg
      (updateState cfg a (updateNoise cfg d h))).q = 1
  rw [(updateStatus_fields cfg _).2.1]
  exact iterate_substep_normSq _ _ _ _ _ hq

/-- C9: quaternion_from_rotation always returns a unit-norm quaternion, the
Hamilton product of unit quaternions is unit-norm, and consequently the
simulator's orientation keeps unit norm after every update from reset
(exact real arithmetic). -/
theorem orientation_unit_norm :
    (∀ v : V3, normSq (quaternion_from_rotation v) = 1) ∧
      (∀ q1 q2 : Quat, normSq q1 = 1 → normSq q2 = 1 →
        normSq (multiply q1 q2) = 1) ∧
      (∀ (cfg : Config) (ins : ℕ → R6) (acts : ℕ → Action) (k : ℕ),
        normSq ((traj cfg ins acts k).q) = 1) := by
  refine ⟨normSq_quaternion_from_rotation, ?_, ?_⟩
  · intro q1 q2 h1 h2
    rw [normSq_multiply, h1, h2, one_mul]
  · intro cfg ins acts k
    induction k with
    | zero =>
        show normSq ⟨0, 0, 0, 1⟩ = 1
        simp [normSq]
    | succ k ih => exact update_normSq _ _ _ _ ih

/-- Witness for C9: the product of two concrete unit quaternions is
unit-norm. -/
theorem orientation_unit_norm_witness :
    normSq (multiply ⟨0, 0, 0, 1⟩ ⟨1, 0, 0, 0⟩) = 1 :=
  orientation_unit_norm.2.1 ⟨0, 0, 0, 1⟩ ⟨1, 0, 0, 0⟩
    (by simp [normSq]) (by simp [normSq])

/-! ## Evaluation lemmas for the small test configuration cfgW -/

/-- The terminal penalty is strictly positive. -/
theorem terminalPenalty_pos : 0 < terminalPenalty := by
  unfold terminalPenalty limitVel limitPos limitRate
  nlinarith [limitTilt_mem.1, limitTilt_mem.2, sq_nonneg Real.pi]

/-- With dt = 0.2 the loop count int(0.1/dt) is zero. -/
theorem nSub_cfgW : nSub cfgW = 0 := by
  unfold nSub cfgW
  have h1 : ((0.1 : ℝ) / (0.2 : ℝ)) = 1 / 2 := by norm_num
  rw [h1]
  have h2 : (Int.floor ((1 : ℝ) / 2)) = 0 := by
    rw [Int.floor_eq_zero_iff]
    constructor <;> norm_num
  rw [h2]
  rfl

/-- With dt = 0.2 the state integrator performs no sub-step at all. -/
theorem updateState_cfgW (a : Action) (h : Sim) : updateState cfgW a h = h := by
  unfold updateState
  rw [nSub_cfgW]
  rfl

/-- With zero noise magnitudes the noise filter keeps an all-zero noise
vector at zero, for any random samples. -/
theorem updateNoise_cfgW (d : R6) (h : Sim) (hn : h.noise = r6zero) :
    updateNoise cfgW d h = h := by
  have hx : (⟨0.8 * h.noise.n0 + 0.2 * d.n0 * cfgW.noise_std.n0 * 2.0,
       0.8 * h.noise.n1 + 0.2 * d.n1 * cfgW.noise_std.n1 * 2.0,
       0.8 * h.noise.n2 + 0.2 * d.n2 * cfgW.noise_std.n2 * 2.0,
       0.8 * h.noise.n3 + 0.2 * d.n3 * cfgW.noise_std.n3 * 2.0,
       0.8 * h.noise.n4 + 0.2 * d.n4 * cfgW.noise_std.n4 * 2.0,
       0.8 * h.noise.n5 + 0.2 * d.n5 * cfgW.noise_std.n5 * 2.0⟩ : R6)
      = h.noise := by
    rw [hn]
    unfold cfgW r6zero
    norm_num
  unfold updateNoise
  rw [hx]

/-- Under cfgW (step budget 1) the status check always fires the budget
condition when the state and tilt are clean, setting terminal. -/
theorem updateStatus_cfgW (h : Sim) (hs : ¬ limitCond h.state)
    (hq : ¬ |h.q.w| < limitTilt) :
    updateStatus cfgW h = { h with terminal := true } := by
  unfold updateStatus
  rw [if_neg hs, if_neg hq, if_pos]
  show cfgW.max_steps ≤ h.steps + 1
  simp only [cfgW]
  omega

/-- One update under cfgW from a clean zero state: nothing moves, the budget
fires, the counter advances. -/
theorem update_cfgW (d : R6) (a : Action) (h : Sim) (hn : h.noise = r6zero)
    (hs : h.state = stateZ) (hq : h.q = idQuat) :
    update cfgW d a h = ⟨r6zero, stateZ, idQuat, true, h.steps + 1⟩ := by
  have h1 := updateNoise_cfgW d h hn
  have h2 := updateState_cfgW a h
  have h3 : updateStatus cfgW h = { h with terminal := true } := by
    apply updateStatus_cfgW
    · rw [hs]; exact limitCond_zero
    · rw [hq]; exact tilt_id
  show { updateStatus cfgW (updateState cfgW a (updateNoise cfgW d h)) with
      steps := (updateStatus cfgW (updateState cfgW a (updateNoise cfgW d h))).steps + 1 } = _
  rw [h1, h2, h3, hn, hs, hq]

/-- Closed form of the cfgW trajectory after at least one call. -/
theorem trajW_eq (k : ℕ) :
    traj cfgW insW actsW (k + 1) = ⟨r6zero, stateZ, idQuat, true, k + 1⟩ := by
  induction k with
  | zero =>
      show update cfgW (insW 0) (actsW 0) reset = _
      rw [show insW 0 = r6zero from rfl, show actsW 0 = act0 from rfl,
        update_cfgW r6zero act0 reset rfl rfl rfl]
      rfl
  | succ k ih =>
      show update cfgW (insW (k + 1)) (actsW (k + 1)) (traj cfgW insW actsW (k + 1)) = _
      rw [show insW (k + 1) = r6zero from rfl, show actsW (k + 1) = act0 from rfl, ih,
        update_cfgW r6zero act0 _ rfl rfl rfl]

/-- Evaluation of the error on an explicitly terminal record. -/
theorem error_terminal_eval (cfg : Config) (n : R6) (s : State9) (q : Quat)
    (k : ℕ) :
    error cfg ⟨n, s, q, true, k⟩
      = terminalPenalty * ((cfg.max_steps : ℝ) - (k : ℝ)) := rfl

/-- Evaluation of the error on an explicitly non-terminal record. -/
theorem error_nonterminal_eval (cfg : Config) (n : R6) (s : State9) (q : Quat)
    (k : ℕ) :
    error cfg ⟨n, s, q, false, k⟩ = nonTerminalError ⟨n, s, q, false, k⟩ := rfl

/-! ## Claim C2: sign of the error -/

/-- The status check always sets terminal once the step budget is reached,
whatever the state. -/
theorem updateStatus_terminal_of_budget (cfg : Config) (h : Sim)
    (hb : h.steps + 1 ≥ cfg.max_steps) :
    (updateStatus cfg h).terminal = true := by
  unfold updateStatus
  split_ifs <;> rfl

/-- Counterexample to C2 as stated: with zero parameters, zero noise
magnitudes and the constructor defaults dt = 0.01 and steps = 6000, the
6001-st update call after reset (one call past the budget) returns a
strictly negative error. -/
theorem error_negative_after_terminal :
    error cfgD (traj cfgD insW actsW 6001) < 0 := by
  have hterm : (traj cfgD insW actsW 6001).terminal = true := by
    rw [show (6001 : ℕ) = 6000 + 1 from rfl, traj_succ_terminal]
    apply updateStatus_terminal_of_budget
    rw [inner_steps, traj_steps]
    show cfgD.max_steps ≤ 6000 + 1
    norm_num [cfgD]
  have hsteps : (traj cfgD insW actsW 6001).steps = 6001 :=
    traj_steps cfgD insW actsW 6001
  unfold error
  rw [hterm, if_pos rfl, hsteps]
  have hp := terminalPenalty_pos
  have hm : (cfgD.max_steps : ℝ) = 6000 := by norm_num [cfgD]
  rw [hm]
  push_cast
  nlinarith

/-- C2 amended: the error returned by any call whose step index is at most
max_steps (in particular every call up to and including the first terminal
one) is non-negative; past-terminal calls can return negative error. -/
theorem error_nonneg_within_budget (cfg : Config) (ins : ℕ → R6)
    (acts : ℕ → Action) (k : ℕ) (hk : k ≤ cfg.max_steps) :
    0 ≤ error cfg (traj cfg ins acts k) := by
  unfold error
  split_ifs with ht
  · apply mul_nonneg terminalPenalty_pos.le
    rw [traj_steps]
    have : (k : ℝ) ≤ (cfg.max_steps : ℝ) := by exact_mod_cast hk
    linarith
  · unfold nonTerminalError
    positivity

/-- Witness for the amended C2 at the reset call of a concrete episode. -/
theorem error_nonneg_within_budget_witness :
    0 ≤ error cfgW (traj cfgW insW actsW 0) :=
  error_nonneg_within_budget cfgW insW actsW 0 (Nat.zero_le _)

/-! ## Claim C1: terminal versus non-terminal error -/

/-- Counterexample to C1 as stated: a state with u = 1 (inside all limits,
level orientation) that becomes terminal purely through the step budget gets
terminal error 0, strictly below the non-terminal formula value 1 at the
same boundary state. -/
theorem terminal_error_claim_counterexample :
    simC1.terminal = false ∧ (updateStatus cfgW simC1).terminal = true ∧
      error cfgW { updateStatus cfgW simC1 with
          steps := (updateStatus cfgW simC1).steps + 1 }
        < nonTerminalError simC1 := by
  have hlim : ¬ limitCond simC1.state := by
    unfold limitCond simC1 limitVel limitPos limitRate
    push_neg
    refine ⟨?_, ?_, ?_, ?_, ?_, ?_, ?_, ?_, ?_⟩ <;>
      simp <;> positivity
  have hst : updateStatus cfgW simC1 = { simC1 with terminal := true } :=
    updateStatus_cfgW simC1 hlim tilt_id
  refine ⟨rfl, by rw [hst], ?_⟩
  rw [hst]
  show error cfgW ⟨simC1.noise, simC1.state, simC1.q, true, simC1.steps + 1⟩
      < nonTerminalError simC1
  rw [error_terminal_eval]
  have h1 : nonTerminalError simC1 = 1 := by
    unfold nonTerminalError simC1 idQuat
    norm_num
  have hm : (cfgW.max_steps : ℝ) = 1 := by norm_num [cfgW]
  have hs : ((simC1.steps + 1 : ℕ) : ℝ) = 1 := by norm_num [simC1]
  rw [h1, hm, hs]
  norm_num

/-- C1 amended: for every terminal simulator state whose nine state
components are within their limits, whose orientation quaternion has unit
norm with |w| at least the tilt limit, and with at least one step left in
the budget, the terminal error is at least the non-terminal error formula
at that state. -/
theorem terminal_error_dominates_within_limits (cfg : Config) (h : Sim)
    (hterm : h.terminal = true)
    (hu : |h.state.u| ≤ limitVel) (hv : |h.state.v| ≤ limitVel)
    (hw : |h.state.w| ≤ limitVel) (hx : |h.state.x| ≤ limitPos)
    (hy : |h.state.y| ≤ limitPos) (hz : |h.state.z| ≤ limitPos)
    (hp : |h.state.p| ≤ limitRate) (hq2 : |h.state.q| ≤ limitRate)
    (hr : |h.state.r| ≤ limitRate)
    (hq : normSq h.q = 1) (htilt : limitTilt ≤ |h.q.w|)
    (hsteps : h.steps + 1 ≤ cfg.max_steps) :
    nonTerminalError h ≤ error cfg h := by
  have key : nonTerminalError h ≤ terminalPenalty := by
    have b1 : h.state.u ^ 2 ≤ limitVel ^ 2 :=
      sq_le_sq' (abs_le.mp hu).1 (abs_le.mp hu).2
    have b2 : h.state.v ^ 2 ≤ limitVel ^ 2 :=
      sq_le_sq' (abs_le.mp hv).1 (abs_le.mp hv).2
    have b3 : h.state.w ^ 2 ≤ limitVel ^ 2 :=
      sq_le_sq' (abs_le.mp hw).1 (abs_le.mp hw).2
    have b4 : h.state.x ^ 2 ≤ limitPos ^ 2 :=
      sq_le_sq' (abs_le.mp hx).1 (abs_le.mp hx).2
    have b5 : h.state.y ^ 2 ≤ limitPos ^ 2 :=
      sq_le_sq' (abs_le.mp hy).1 (abs_le.mp hy).2
    have b6 : h.state.z ^ 2 ≤ limitPos ^ 2 :=
      sq_le_sq' (abs_le.mp hz).1 (abs_le.mp hz).2
    have b7 : h.state.p ^ 2 ≤ limitRate ^ 2 :=
      sq_le_sq' (abs_le.mp hp).1 (abs_le.mp hp).2
    have b8 : h.state.q ^ 2 ≤ limitRate ^ 2 :=
      sq_le_sq' (abs_le.mp hq2).1 (abs_le.mp hq2).2
    have b9 : h.state.r ^ 2 ≤ limitRate ^ 2 :=
      sq_le_sq' (abs_le.mp hr).1 (abs_le.mp hr).2
    have bq : h.q.x ^ 2 + h.q.y ^ 2 + h.q.z ^ 2 ≤ 1 - limitTilt ^ 2 := by
      have hw2 : limitTilt ^ 2 ≤ h.q.w ^ 2 := by
        nlinarith [sq_abs h.q.w, limitTilt_mem.1]
      unfold normSq at hq
      linarith
    unfold nonTerminalError terminalPenalty
    linarith
  have hrem : (1 : ℝ) ≤ (cfg.max_steps : ℝ) - (h.steps : ℝ) := by
    have : ((h.steps : ℝ) + 1) ≤ (cfg.max_steps : ℝ) := by exact_mod_cast hsteps
    linarith
  have herr : error cfg h
      = terminalPenalty * ((cfg.max_steps : ℝ) - (h.steps : ℝ)) := by
    unfold error
    rw [hterm]
    rw [if_pos rfl]
  rw [herr]
  calc nonTerminalError h ≤ terminalPenalty := key
    _ = terminalPenalty * 1 := (mul_one _).symm
    _ ≤ terminalPenalty * ((cfg.max_steps : ℝ) - (h.steps : ℝ)) := by
        exact mul_le_mul_of_nonneg_left hrem terminalPenalty_pos.le

/-- Witness for the amended C1 at a concrete terminal resting state. -/
theorem terminal_error_dominates_within_limits_witness :
    nonTerminalError ⟨r6zero, stateZ, idQuat, true, 0⟩
      ≤ error cfgW ⟨r6zero, stateZ, idQuat, true, 0⟩ := by
  apply terminal_error_dominates_within_limits
  · rfl
  · show |stateZ.u| ≤ limitVel
    rw [show stateZ.u = 0 from rfl]
    simp [limitVel]
  · show |stateZ.v| ≤ limitVel
    rw [show stateZ.v = 0 from rfl]
    simp [limitVel]
  · show |stateZ.w| ≤ limitVel
    rw [show stateZ.w = 0 from rfl]
    simp [limitVel]
  · show |stateZ.x| ≤ limitPos
    rw [show stateZ.x = 0 from rfl]
    simp [limitPos]
  · show |stateZ.y| ≤ limitPos
    rw [show stateZ.y = 0 from rfl]
    simp [limitPos]
  · show |stateZ.z| ≤ limitPos
    rw [show stateZ.z = 0 from rfl]
    simp [limitPos]
  · show |stateZ.p| ≤ limitRate
    rw [show stateZ.p = (0 : ℝ) from rfl, abs_zero]
    unfold limitRate
    positivity
  · show |stateZ.q| ≤ limitRate
    rw [show stateZ.q = (0 : ℝ) from rfl, abs_zero]
    unfold limitRate
    positivity
  · show |stateZ.r| ≤ limitRate
    rw [show stateZ.r = (0 : ℝ) from rfl, abs_zero]
    unfold limitRate
    positivity
  · show normSq idQuat = 1
    simp [normSq, idQuat]
  · show limitTilt ≤ |idQuat.w|
    rw [show idQuat.w = 1 from rfl, abs_one]
    exact limitTilt_mem.2
  · show 0 + 1 ≤ cfgW.max_steps
    simp [cfgW]

/-! ## Claim C3: pure budget termination returns error zero -/

/-- C3: when an update call from a previously non-terminal simulator turns
terminal solely through the step budget (no limit or tilt violation on the
post-integration state, steps + 1 reaching max_steps with steps still below
max_steps, as holds on the first such call from reset), the call returns
error exactly 0. -/
theorem budget_termination_error_zero (cfg : Config) (d : R6) (a : Action)
    (h h2 : Sim) (hE : h2 = updateState cfg a (updateNoise cfg d h))
    (hterm : h2.terminal = false)
    (hlim : ¬ limitCond h2.state)
    (htilt : ¬ |h2.q.w| < limitTilt)
    (hbud : h2.steps + 1 ≥ cfg.max_steps)
    (hfresh : h2.steps < cfg.max_steps) :
    error cfg (update cfg d a h) = 0 := by
  have hstat : updateStatus cfg h2 = { h2 with terminal := true } := by
    unfold updateStatus
    rw [if_neg hlim, if_neg htilt, if_pos hbud]
  have hupd : update cfg d a h
      = { updateStatus cfg h2 with steps := (updateStatus cfg h2).steps + 1 } := by
    rw [hE]
    rfl
  have hcount : h2.steps + 1 = cfg.max_steps :=
    le_antisymm (Nat.succ_le_of_lt hfresh) hbud
  rw [hupd, hstat]
  show error cfg ⟨h2.noise, h2.state, h2.q, true, h2.steps + 1⟩ = 0
  rw [error_terminal_eval, hcount]
  ring

/-- Witness for C3: under cfgW the very first update call from reset turns
terminal through the budget alone and returns error 0. -/
theorem budget_termination_error_zero_witness :
    error cfgW (update cfgW r6zero act0 reset) = 0 := by
  have hE : reset = updateState cfgW act0 (updateNoise cfgW r6zero reset) := by
    rw [updateNoise_cfgW r6zero reset rfl, updateState_cfgW]
  refine budget_termination_error_zero cfgW r6zero act0 reset reset hE rfl
    ?_ ?_ ?_ ?_
  · exact limitCond_zero
  · exact tilt_id
  · show cfgW.max_steps ≤ 0 + 1
    simp [cfgW]
  · show 0 < cfgW.max_steps
    simp [cfgW]

/-! ## Claim C6: termination exactly at the step budget -/

/-- C6: starting from reset, on a trajectory whose post-integration states
never violate a state limit or the tilt limit within the budget, terminal is
false on every call before the max_steps-th and true on the max_steps-th
call. -/
theorem terminal_exactly_at_max_steps (cfg : Config) (ins : ℕ → R6)
    (acts : ℕ → Action) (hmax : 1 ≤ cfg.max_steps)
    (hsafe : ∀ k, 1 ≤ k → k ≤ cfg.max_steps →
      ¬ limitCond (traj cfg ins acts k).state ∧
        ¬ |(traj cfg ins acts k).q.w| < limitTilt) :
    (∀ k, k < cfg.max_steps → (traj cfg ins acts k).terminal = false) ∧
      (traj cfg ins acts cfg.max_steps).terminal = true := by
  have hfalse : ∀ k, k < cfg.max_steps → (traj cfg ins acts k).terminal = false := by
    intro k
    induction k with
    | zero => intro _; rfl
    | succ k ih =>
        intro hk
        have hk' : k < cfg.max_steps := Nat.lt_of_succ_lt hk
        have hlim : ¬ limitCond (updateState cfg (acts k)
            (updateNoise cfg (ins k) (traj cfg ins acts k))).state := by
          rw [← traj_succ_state]
          exact (hsafe (k + 1) (Nat.succ_le_succ (Nat.zero_le _)) (le_of_lt hk)).1
        have htilt : ¬ |(updateState cfg (acts k)
            (updateNoise cfg (ins k) (traj cfg ins acts k))).q.w| < limitTilt := by
          rw [← traj_succ_q]
          exact (hsafe (k + 1) (Nat.succ_le_succ (Nat.zero_le _)) (le_of_lt hk)).2
        have hbud : ¬ (updateState cfg (acts k)
            (updateNoise cfg (ins k) (traj cfg ins acts k))).steps + 1 ≥ cfg.max_steps := by
          rw [inner_steps, traj_steps]
          omega
        rw [traj_succ_terminal,
          updateStatus_none cfg _ hlim htilt hbud, inner_terminal]
        exact ih hk'
  refine ⟨hfalse, ?_⟩
  obtain ⟨m, hm⟩ : ∃ m, cfg.max_steps = m + 1 :=
    ⟨cfg.max_steps - 1, (Nat.succ_pred_eq_of_pos hmax).symm⟩
  have hsafeM := hsafe cfg.max_steps hmax le_rfl
  rw [hm] at hsafeM
  have h1 := hsafeM.1
  rw [traj_succ_state] at h1
  have h2 := hsafeM.2
  rw [traj_succ_q] at h2
  have hbud : (updateState cfg (acts m)
      (updateNoise cfg (ins m) (traj cfg ins acts m))).steps + 1 ≥ cfg.max_steps := by
    rw [inner_steps, traj_steps]
    omega
  rw [hm, traj_succ_terminal]
  unfold updateStatus
  rw [if_neg h1, if_neg h2, if_pos hbud]

/-- Witness for C6 under cfgW: the first (and budgeted last) call is
terminal. -/
theorem terminal_exactly_at_max_steps_witness :
    (traj cfgW insW actsW cfgW.max_steps).terminal = true := by
  apply (terminal_exactly_at_max_steps cfgW insW actsW (by simp [cfgW]) ?_).2
  intro k hk1 hk2
  have hk : k = 1 := by
    simp only [cfgW] at hk2
    omega
  subst hk
  rw [show (1 : ℕ) = 0 + 1 from rfl, trajW_eq 0]
  exact ⟨limitCond_zero, tilt_id⟩

/-! ## Claim C4: the gravity scenario -/

/-- The noise filter keeps zero noise at zero whenever all noise magnitudes
are zero, for any random samples. -/
theorem updateNoise_zero_std (cfg : Config) (hstd : cfg.noise_std = r6zero)
    (d : R6) (h : Sim) (hn : h.noise = r6zero) :
    updateNoise cfg d h = h := by
  have hx : (⟨0.8 * h.noise.n0 + 0.2 * d.n0 * cfg.noise_std.n0 * 2.0,
       0.8 * h.noise.n1 + 0.2 * d.n1 * cfg.noise_std.n1 * 2.0,
       0.8 * h.noise.n2 + 0.2 * d.n2 * cfg.noise_std.n2 * 2.0,
       0.8 * h.noise.n3 + 0.2 * d.n3 * cfg.noise_std.n3 * 2.0,
       0.8 * h.noise.n4 + 0.2 * d.n4 * cfg.noise_std.n4 * 2.0,
       0.8 * h.noise.n5 + 0.2 * d.n5 * cfg.noise_std.n5 * 2.0⟩ : R6)
      = h.noise := by
    rw [hn, hstd]
    unfold r6zero
    norm_num
  unfold updateNoise
  rw [hx]

/-- With the default dt = 0.01 the loop count int(0.1/dt) is 10. -/
theorem nSub_cfgX : nSub cfgX = 10 := by
  unfold nSub cfgX
  have h1 : ((0.1 : ℝ) / (0.01 : ℝ)) = ((10 : ℕ) : ℝ) := by norm_num
  rw [h1, Int.floor_natCast]
  rfl

/-- Clamping leaves 0 unchanged. -/
theorem clamp_zero : clamp 0 = 0 := by
  unfold clamp
  rw [max_eq_left (by norm_num : (-1 : ℝ) ≤ 0),
    min_eq_left (by norm_num : (0 : ℝ) ≤ 1)]

/-- Clamping leaves the zero action unchanged. -/
theorem clampAction_act0 : clampAction act0 = act0 := by
  simp only [clampAction, act0]
  rw [clamp_zero]

/-- One gravity-scenario sub-step in closed form: with zero noise, level
orientation, zero action and zero u, p, q, r, only v, w, y, z move, by the
affine Euler rules of _update_state. -/
theorem substep_xcell (v w y z : ℝ) :
    substep xcellParams 0.01 act0 (xcellSim v w y z)
      = xcellSim (v + 0.01 * (-0.43 * v + -0.54))
          (w + 0.01 * (-0.49 * w + 9.81))
          (y + 0.01 * v) (z + 0.01 * w) := by
  have h0 : (⟨0.01 * (0 : ℝ), 0.01 * (0 : ℝ), 0.01 * (0 : ℝ)⟩ : V3)
      = ⟨0, 0, 0⟩ := by norm_num
  simp only [substep, xcellSim, r6zero, act0, xcellParams]
  rw [h0, quaternion_from_rotation_zero, multiply_idQuat, inverse_rotate_idQuat,
    rotate_idQuat]
  simp only [Sim.mk.injEq, State9.mk.injEq]
  norm_num

/-- Closed form of the 10 gravity-scenario sub-steps. -/
theorem iterate_substep_xcell (n : ℕ) :
    (substep xcellParams 0.01 act0)^[n] (xcellSim 0 0 0 0)
      = xcellSim (vseqX n) (wseqX n) (yseqX n) (zseqX n) := by
  induction n with
  | zero => rfl
  | succ n ih =>
      rw [Function.iterate_succ_apply', ih, substep_xcell]
      rw [show vseqX (n + 1) = vseqX n + 0.01 * (-0.43 * vseqX n + -0.54) from rfl,
        show wseqX (n + 1) = wseqX n + 0.01 * (-0.49 * wseqX n + 9.81) from rfl,
        show yseqX (n + 1) = yseqX n + 0.01 * vseqX n from rfl,
        show zseqX (n + 1) = zseqX n + 0.01 * wseqX n from rfl]

/-- C4: from reset with zero noise magnitudes, zero action and the default
dt = 0.01, one update call with XcellTempest parameters yields a vertical
velocity within 0.03 of 9.81 * 0.1 = 0.981, keeps the orientation exactly at
identity and u, p, q, r, x exactly zero, and moves the positions by at most
0.01 (y) and 0.05 (z): position and orientation change only to first
order. -/
theorem gravity_scenario (d : R6) :
    |(update cfgX d act0 reset).state.w - 9.81 * 0.1| ≤ 0.03 ∧
      (update cfgX d act0 reset).state.u = 0 ∧
      (update cfgX d act0 reset).state.x = 0 ∧
      |(update cfgX d act0 reset).state.v| ≤ 0.1 ∧
      |(update cfgX d act0 reset).state.y| ≤ 0.01 ∧
      |(update cfgX d act0 reset).state.z| ≤ 0.05 ∧
      (update cfgX d act0 reset).q = idQuat ∧
      (update cfgX d act0 reset).state.p = 0 ∧
      (update cfgX d act0 reset).state.q = 0 ∧
      (update cfgX d act0 reset).state.r = 0 := by
  have hn : updateNoise cfgX d reset = reset :=
    updateNoise_zero_std cfgX rfl d reset rfl
  have hs : updateState cfgX act0 reset
      = xcellSim (vseqX 10) (wseqX 10) (yseqX 10) (zseqX 10) := by
    unfold updateState
    rw [clampAction_act0, nSub_cfgX]
    show (substep xcellParams 0.01 act0)^[10] (xcellSim 0 0 0 0) = _
    exact iterate_substep_xcell 10
  have hlim : ¬ limitCond
      (xcellSim (vseqX 10) (wseqX 10) (yseqX 10) (zseqX 10)).state := by
    show ¬ limitCond ⟨0, vseqX 10, wseqX 10, 0, yseqX 10, zseqX 10, 0, 0, 0⟩
    unfold limitCond limitVel limitPos limitRate
    push_neg
    refine ⟨?_, ?_, ?_, ?_, ?_, ?_, ?_, ?_, ?_⟩
    · show |(0 : ℝ)| ≤ 5
      norm_num
    · show |vseqX 10| ≤ 5
      norm_num [vseqX, abs_le]
    · show |wseqX 10| ≤ 5
      norm_num [wseqX, abs_le]
    · show |(0 : ℝ)| ≤ 20
      norm_num
    · show |yseqX 10| ≤ 20
      norm_num [yseqX, vseqX, abs_le]
    · show |zseqX 10| ≤ 20
      norm_num [zseqX, wseqX, abs_le]
    · show |(0 : ℝ)| ≤ 4 * Real.pi
      rw [abs_zero]
      positivity
    · show |(0 : ℝ)| ≤ 4 * Real.pi
      rw [abs_zero]
      positivity
    · show |(0 : ℝ)| ≤ 4 * Real.pi
      rw [abs_zero]
      positivity
  have htilt : ¬ |(xcellSim (vseqX 10) (wseqX 10) (yseqX 10) (zseqX 10)).q.w|
      < limitTilt := tilt_id
  have hbud : ¬ (xcellSim (vseqX 10) (wseqX 10) (yseqX 10) (zseqX 10)).steps + 1
      ≥ cfgX.max_steps := by
    show ¬ (0 + 1 ≥ 6000)
    omega
  have hstat := updateStatus_none cfgX _ hlim htilt hbud
  have hfin : update cfgX d act0 reset
      = ⟨r6zero, ⟨0, vseqX 10, wseqX 10, 0, yseqX 10, zseqX 10, 0, 0, 0⟩,
         idQuat, false, 0 + 1⟩ := by
    show { updateStatus cfgX (updateState cfgX act0 (updateNoise cfgX d reset)) with
        steps := (updateStatus cfgX
          (updateState cfgX act0 (updateNoise cfgX d reset))).steps + 1 } = _
    rw [hn, hs, hstat]
    rfl
  rw [hfin]
  refine ⟨?_, rfl, rfl, ?_, ?_, ?_, rfl, rfl, rfl, rfl⟩
  · show |wseqX 10 - 9.81 * 0.1| ≤ 0.03
    norm_num [wseqX, abs_le]
  · show |vseqX 10| ≤ 0.1
    norm_num [vseqX, abs_le]
  · show |yseqX 10| ≤ 0.01
    norm_num [yseqX, vseqX, abs_le]
  · show |zseqX 10| ≤ 0.05
    norm_num [zseqX, wseqX, abs_le]

end HeliVerify
